import Mathlib

/-!
Verification development for the math-tutoring session pipeline of this
repository: the free-text numeric answer normalizer, the correctness
evaluator, the session/submission store operations, the submission API
routes, and the per-model prompt/flow caches of the generative client.

Strings are modelled as Lean `String`/`List Char`; JavaScript numbers are
modelled as exact rationals (`ℚ`); every regular expression used by the
source is compiled by hand into a deterministic matcher (the patterns in
the source never need backtracking: see the comments at each matcher).
All definitions are executable.
-/

namespace MathBuddy

/-- Characters of the JS `\s` class that occur in this development
    (ASCII whitespace; `&nbsp;` is rewritten to a plain space before any
    whitespace handling, mirroring the source's entity replacement). -/
def isJsSpace (c : Char) : Bool :=
  decide (c = ' ' ∨ c = '\t' ∨ c = '\n' ∨ c = '\r' ∨ c = '\x0b' ∨ c = '\x0c')

/-- JS `String.prototype.trim`. -/
def trimChars (cs : List Char) : List Char :=
  ((cs.dropWhile isJsSpace).reverse.dropWhile isJsSpace).reverse

/-- `value.replace(/,/g, "")`. -/
def removeCommas (cs : List Char) : List Char :=
  cs.filter (fun c => decide (c ≠ ','))

/-- Digit character for a value below ten. -/
def digitChar (n : Nat) : Char :=
  match n with
  | 0 => '0' | 1 => '1' | 2 => '2' | 3 => '3' | 4 => '4'
  | 5 => '5' | 6 => '6' | 7 => '7' | 8 => '8' | _ => '9'

/-- Numeric value of a digit character. -/
def digitVal (c : Char) : Nat := c.toNat - 48

/-- Value of a digit string read most-significant first. -/
def digitsVal (cs : List Char) : Nat :=
  cs.foldl (fun n c => n * 10 + digitVal c) 0

/-- Decimal digits of a natural number (fuel-driven so that it reduces
    by kernel computation; `natDigits` supplies sufficient fuel). -/
def natDigitsGo : Nat → Nat → List Char
  | 0, _ => []
  | fuel + 1, n =>
    if n < 10 then [digitChar n]
    else natDigitsGo fuel (n / 10) ++ [digitChar (n % 10)]

/-- Decimal digit characters of a natural number. -/
def natDigits (n : Nat) : List Char := natDigitsGo (n + 1) n

/-- Decimal rendering of an integer, as JS would print it. -/
def intChars (x : Int) : List Char :=
  if x < 0 then '-' :: natDigits x.natAbs else natDigits x.toNat

/-- The unsigned part of the regex number token `\d+(?:\.\d+)?`, matched
    greedily at the head of `cs`; returns the matched characters and the
    remainder.  Greedy matching agrees with the regex here because no
    character given back by `\d+` or `(?:\.\d+)?` could ever satisfy the
    context that follows the token in the patterns of the source. -/
def matchUnsignedNum (cs : List Char) : Option (List Char × List Char) :=
  let ds := cs.takeWhile Char.isDigit
  let r := cs.dropWhile Char.isDigit
  if ds = [] then none
  else
    match r with
    | '.' :: r2 =>
      let fs := r2.takeWhile Char.isDigit
      if fs = [] then some (ds, r)
      else some (ds ++ '.' :: fs, r2.dropWhile Char.isDigit)
    | _ => some (ds, r)

/-- The regex number token `-?\d+(?:\.\d+)?` at the head of `cs`. -/
def matchNumber (cs : List Char) : Option (List Char × List Char) :=
  match cs with
  | '-' :: r => (matchUnsignedNum r).map (fun g => ('-' :: g.1, g.2))
  | _ => matchUnsignedNum cs

/-- `cleaned.match(/^(-?\d+(?:\.\d+)?)\s*\/\s*(-?\d+(?:\.\d+)?)/)`:
    the two captured groups, when the fraction pattern matches at the
    start of the cleaned string (no end anchor in the source). -/
def fractionMatchL (cs : List Char) : Option (List Char × List Char) :=
  match matchNumber cs with
  | none => none
  | some (g1, r1) =>
    match r1.dropWhile isJsSpace with
    | '/' :: r2 =>
      match matchNumber (r2.dropWhile isJsSpace) with
      | none => none
      | some (g2, _) => some (g1, g2)
    | _ => none

/-- `cleaned.match(/^(-?\d+(?:\.\d+)?)\s*%$/)`: the captured group, when
    the percent pattern matches the whole cleaned string. -/
def percentMatchL (cs : List Char) : Option (List Char) :=
  match matchNumber cs with
  | none => none
  | some (g1, r1) =>
    match r1.dropWhile isJsSpace with
    | ['%'] => some g1
    | _ => none

/-- Exponent factor of a JS float literal: `e`/`E`, an optional sign and
    digits.  When no digit follows, the exponent part is not consumed and
    the factor is one, as for JS `parseFloat("5e")`. -/
def expFactor (cs : List Char) : ℚ :=
  match cs with
  | c :: r =>
    if c = 'e' ∨ c = 'E' then
      match r with
      | '-' :: r2 =>
        let ds := r2.takeWhile Char.isDigit
        if ds = [] then 1 else (10 : ℚ) ^ (-(digitsVal ds : Int))
      | '+' :: r2 =>
        let ds := r2.takeWhile Char.isDigit
        if ds = [] then 1 else (10 : ℚ) ^ (digitsVal ds : Int)
      | _ =>
        let ds := r.takeWhile Char.isDigit
        if ds = [] then 1 else (10 : ℚ) ^ (digitsVal ds : Int)
    else 1
  | [] => 1

/-- Unsigned part of JS `parseFloat`: longest prefix `\d+\.?\d*` or
    `\.\d+`, with an optional exponent; `none` models `NaN`. -/
def parseUnsigned (cs : List Char) : Option ℚ :=
  let ip := cs.takeWhile Char.isDigit
  let cs2 := cs.dropWhile Char.isDigit
  let fr : List Char × List Char :=
    match cs2 with
    | '.' :: r => (r.takeWhile Char.isDigit, r.dropWhile Char.isDigit)
    | _ => ([], cs2)
  if ip = [] ∧ fr.1 = [] then none
  else
    some (((digitsVal ip : ℚ) + (digitsVal fr.1 : ℚ) / (10 : ℚ) ^ fr.1.length)
            * expFactor fr.2)

/-- JS `parseFloat` on a character list: skip leading whitespace, parse an
    optional sign and the longest valid float prefix; `none` models `NaN`.
    Values are exact rationals (double rounding is not modelled; no claim
    in this development depends on it), and the `Infinity` literal is not
    modelled. -/
def parseFloatQCore (cs0 : List Char) : Option ℚ :=
  match cs0.dropWhile isJsSpace with
  | '-' :: r => (parseUnsigned r).map (fun q => -q)
  | '+' :: r => parseUnsigned r
  | cs => parseUnsigned cs

/-- The shared tail of every `parseNumericAnswer` variant in the source:
    on the cleaned string, try the fraction pattern (rejecting a zero
    denominator), then the percent pattern, then a plain `parseFloat`;
    `none` models the `null` result. -/
def parseNumericAnswerCore (cleaned : List Char) : Option ℚ :=
  if cleaned = [] then none
  else
    let fromFraction : Option ℚ :=
      match fractionMatchL cleaned with
      | some (g1, g2) =>
        match parseFloatQCore g1, parseFloatQCore g2 with
        | some num, some den => if den ≠ 0 then some (num / den) else none
        | _, _ => none
      | none => none
    match fromFraction with
    | some v => some v
    | none =>
      let fromPercent : Option ℚ :=
        match percentMatchL cleaned with
        | some g => (parseFloatQCore g).map (fun q => q / 100)
        | none => none
      match fromPercent with
      | some v => some v
      | none => parseFloatQCore cleaned

/-- `parseNumericAnswer` of `src/app/api/math-sessions/[id]/submissions/route.ts`:
    cleaning is comma removal plus trim. -/
def parseNumericAnswer (s : String) : Option ℚ :=
  parseNumericAnswerCore (trimChars (removeCommas s.data))

/-- Case-insensitive comparison of a lowercase pattern against the head
    of a character run (the `i` flag of the source's unit regex). -/
def patAtHead : List Char → List Char → Bool
  | [], _ => true
  | _ :: _, [] => false
  | p :: ps, c :: cs => decide (c.toLower = p) && patAtHead ps cs

/-- Case-insensitive substring test, for `/(...)/i.test(segment)`. -/
def containsCI (pat : List Char) : List Char → Bool
  | [] => patAtHead pat []
  | c :: cs => patAtHead pat (c :: cs) || containsCI pat cs

/-- The alternation `(cm|mm|m|km|g|kg|l|ml|°C|°F)` of the unit regex. -/
def unitPatterns : List (List Char) :=
  [['c','m'], ['m','m'], ['m'], ['k','m'], ['g'], ['k','g'], ['l'],
   ['m','l'], ['°','c'], ['°','f']]

/-- `/(cm|mm|m|km|g|kg|l|ml|°C|°F)/i.test(segment)`. -/
def segmentIsUnit (run : List Char) : Bool :=
  unitPatterns.any (fun p => containsCI p run)

/-- Membership in the character class `[a-zA-Z%°]`. -/
def isUnitClassChar (c : Char) : Bool :=
  c.isAlpha || decide (c = '%') || decide (c = '°')

/-- `.replace(/[a-zA-Z%°]+/g, seg => unit-test(seg) ? "" : " ")`:
    each maximal run of unit-class characters is deleted when it contains
    a unit word, otherwise replaced by a single space.  Fuel-driven scan;
    each step consumes at least one character. -/
def unitStrip : Nat → List Char → List Char
  | 0, cs => cs
  | _ + 1, [] => []
  | fuel + 1, c :: cs =>
    if isUnitClassChar c then
      (if segmentIsUnit ((c :: cs).takeWhile isUnitClassChar) then []
       else [' ']) ++ unitStrip fuel ((c :: cs).dropWhile isUnitClassChar)
    else c :: unitStrip fuel cs

/-- Unit stripping over a whole character list. -/
def unitStripAll (cs : List Char) : List Char := unitStrip cs.length cs

/-- Remainder of `cs` after the first case-insensitive occurrence of
    `pat`, or `none` when `pat` does not occur. -/
def dropThroughCI (pat : List Char) : List Char → Option (List Char)
  | [] => if pat = [] then some [] else none
  | c :: cs =>
    if patAtHead pat (c :: cs) then some ((c :: cs).drop pat.length)
    else dropThroughCI pat cs

/-- One match of `<open[^>]*>[\s\S]*?</close>` at the head of `cs`
    (case-insensitive): the remainder after the closing tag. -/
def matchBlockAtHead (openTag closeTag : List Char) (cs : List Char) :
    Option (List Char) :=
  if patAtHead openTag cs then
    let afterOpen := cs.drop openTag.length
    let afterAttrs := afterOpen.dropWhile (fun c => decide (c ≠ '>'))
    match afterAttrs with
    | '>' :: body => dropThroughCI closeTag body
    | _ => none
  else none

/-- `.replace(/<open[^>]*>[\s\S]*?<\/open>/gi, "")` for the style and
    script blocks of `stripHtml`.  A block with no closing tag is left in
    place, exactly as the non-greedy regex leaves it. -/
def stripBlocks (openTag closeTag : List Char) : Nat → List Char → List Char
  | 0, cs => cs
  | _ + 1, [] => []
  | fuel + 1, c :: cs =>
    match matchBlockAtHead openTag closeTag (c :: cs) with
    | some rest => stripBlocks openTag closeTag fuel rest
    | none => c :: stripBlocks openTag closeTag fuel cs

/-- Remainder after `[^>]+>` (at least one non-`>` character, then `>`). -/
def tagRemainder (cs : List Char) : Option (List Char) :=
  match cs.dropWhile (fun c => decide (c ≠ '>')) with
  | '>' :: rest => if cs.takeWhile (fun c => decide (c ≠ '>')) = [] then none
                   else some rest
  | _ => none

/-- `.replace(/<[^>]+>/g, " ")`. -/
def stripTags : Nat → List Char → List Char
  | 0, cs => cs
  | _ + 1, [] => []
  | fuel + 1, c :: cs =>
    if c = '<' then
      match tagRemainder cs with
      | some rest => ' ' :: stripTags fuel rest
      | none => c :: stripTags fuel cs
    else c :: stripTags fuel cs

/-- Case-sensitive comparison of a literal against the head of a run. -/
def litAtHead : List Char → List Char → Bool
  | [], _ => true
  | _ :: _, [] => false
  | p :: ps, c :: cs => decide (c = p) && litAtHead ps cs

/-- `.replace(pat-literal, replacement)` globally (case-sensitive), for
    the entity rewrites `&nbsp;` → space and `&amp;` → `&`. -/
def replaceLit (pat repl : List Char) : Nat → List Char → List Char
  | 0, cs => cs
  | _ + 1, [] => []
  | fuel + 1, c :: cs =>
    if pat ≠ [] ∧ litAtHead pat (c :: cs) then
      repl ++ replaceLit pat repl fuel ((c :: cs).drop pat.length)
    else c :: replaceLit pat repl fuel cs

/-- `.replace(/\s+/g, " ")`. -/
def collapseWs : Nat → List Char → List Char
  | 0, cs => cs
  | _ + 1, [] => []
  | fuel + 1, c :: cs =>
    if isJsSpace c then ' ' :: collapseWs fuel ((c :: cs).dropWhile isJsSpace)
    else c :: collapseWs fuel cs

/-- The entity and tag portion shared by both `stripHtml`/`toPlainText`
    variants: remove style blocks, script blocks and tags, then decode
    `&nbsp;` and `&amp;`. -/
def stripMarkup (cs : List Char) : List Char :=
  let s1 := stripBlocks "<style".data "</style>".data cs.length cs
  let s2 := stripBlocks "<script".data "</script>".data s1.length s1
  let s3 := stripTags s2.length s2
  let s4 := replaceLit "&nbsp;".data " ".data s3.length s3
  replaceLit "&amp;".data "&".data s4.length s4

/-- `stripHtml` of the submissions route (markup removal plus trim). -/
def stripHtmlR (cs : List Char) : List Char := trimChars (stripMarkup cs)

/-- `toPlainText` of the submissions route: `stripHtml`, collapse
    whitespace, trim. -/
def toPlainTextR (cs : List Char) : List Char :=
  let s := collapseWs (stripHtmlR cs).length (stripHtmlR cs)
  trimChars s

/-- `toPlainText` of the variant-B submissions route (`part_011`):
    markup removal, collapse whitespace, trim in a single chain. -/
def toPlainTextU (cs : List Char) : List Char :=
  let s := collapseWs (stripMarkup cs).length (stripMarkup cs)
  trimChars s

/-- `parseNumericAnswer` of the variant-B submissions route (`part_011`):
    cleaning is `toPlainText`, comma removal, unit stripping, trim. -/
def parseNumericAnswerU (s : String) : Option ℚ :=
  parseNumericAnswerCore (trimChars (unitStripAll (removeCommas (toPlainTextU s.data))))

/-- The cleaned, lowercased form both sides are reduced to by
    `answersMatch` (`toPlainText(x).toLowerCase()`). -/
def plainLower (s : String) : List Char :=
  (toPlainTextR s.data).map Char.toLower

/-- `parseNumericAnswer(toPlainText(x).toLowerCase())`, the numeric
    normalization `answersMatch` applies to each side. -/
def normalizedNumeric (s : String) : Option ℚ :=
  parseNumericAnswerCore (trimChars (removeCommas (plainLower s)))

/-- `answersMatch` of `src/app/api/math-sessions/[id]/submissions/route.ts`:
    clean and lowercase both sides, compare numerically under the fixed
    absolute tolerance when both parse, otherwise compare the cleaned
    strings. -/
def answersMatch (correctAnswer studentAnswer : String) : Bool :=
  match normalizedNumeric correctAnswer, normalizedNumeric studentAnswer with
  | some a, some b => decide (|a - b| < 1 / 1000)
  | _, _ => decide (plainLower correctAnswer = plainLower studentAnswer)

/-! ### Data model: sessions, submissions, and the latest-submission relation -/

/-- A row of `math_problem_submissions` as selected by the variant-A
    routes (`created_at` is modelled as the epoch-milliseconds integer
    that `new Date(s).getTime()` yields for the stored timestamp). -/
structure SubmissionRow where
  id : String
  created_at : Int
  user_answer : String
  feedback : Option String
  is_correct : Option Bool
deriving DecidableEq, Repr

/-- One step of the stored working, after schema validation. -/
structure WorkingStep where
  step : Int
  explanation : String
  formula : String
deriving DecidableEq, Repr

/-- A row of `math_problem_sessions` (variant-A layout) together with its
    embedded submissions.  `working_steps` is `none` when the stored JSON
    does not pass the working-step schema. -/
structure SessionRow where
  id : String
  created_at : Int
  primary_level : String
  topic : String
  difficulty : String
  problem_text : String
  answer_text : String
  working_steps : Option (List WorkingStep)
  latest_hint : Option String
  submissions : List SubmissionRow
deriving DecidableEq, Repr

/-- Ascending comparison used by
    `sort((a, b) => new Date(a.created_at).getTime() - new Date(b.created_at).getTime())`. -/
def subByCreated (a b : SubmissionRow) : Prop := a.created_at ≤ b.created_at

instance : DecidableRel subByCreated := fun a b =>
  inferInstanceAs (Decidable (a.created_at ≤ b.created_at))

instance : IsTotal SubmissionRow subByCreated :=
  ⟨fun a b => le_total a.created_at b.created_at⟩

instance : IsTrans SubmissionRow subByCreated :=
  ⟨fun _ _ _ h1 h2 => le_trans h1 h2⟩

/-- `computeLatestSubmission` of `src/app/api/math-sessions/route.ts`:
    `null` on an empty list, otherwise the last element after a stable
    ascending sort on the creation timestamp. -/
def computeLatestSubmission (submissions : List SubmissionRow) : Option SubmissionRow :=
  match submissions with
  | [] => none
  | _ :: _ => (List.insertionSort subByCreated submissions).getLast?

/-- `normalizeWorking`: schema-validated working steps, or `[]`. -/
def normalizeWorking (w : Option (List WorkingStep)) : List WorkingStep := w.getD []

/-- The `latestSubmission` JSON object built by the list route. -/
structure SubmissionView where
  id : String
  createdAt : Int
  userAnswer : String
  feedback : Option String
  isCorrect : Option Bool
deriving DecidableEq, Repr

/-- The session JSON object built by the list route. -/
structure SessionView where
  id : String
  createdAt : Int
  primary : String
  topic : String
  difficulty : String
  problem : String
  answer : String
  working : List WorkingStep
  hint : Option String
  latestSubmission : Option SubmissionView
deriving DecidableEq, Repr

/-- Field renaming from a stored submission row to its JSON view. -/
def viewSubmission (m : SubmissionRow) : SubmissionView :=
  ⟨m.id, m.created_at, m.user_answer, m.feedback, m.is_correct⟩

/-- The per-session mapping of the list route: rename the row fields and
    attach the computed latest submission. -/
def annotateSession (s : SessionRow) : SessionView :=
  ⟨s.id, s.created_at, s.primary_level, s.topic, s.difficulty,
   s.problem_text, s.answer_text, normalizeWorking s.working_steps,
   s.latest_hint, (computeLatestSubmission s.submissions).map viewSubmission⟩

/-! ### The list route (`GET /api/math-sessions`) -/

/-- The `status` query value, after schema validation. -/
inductive StatusFilter | all | correct | incorrect | pending
deriving DecidableEq, Repr

/-- The `difficulty` query value, after schema validation. -/
inductive DifficultyFilter | all | easy | medium | hard
deriving DecidableEq, Repr

/-- Database value of a concrete difficulty filter. -/
def difficultyStr : DifficultyFilter → String
  | .all => ""
  | .easy => "easy"
  | .medium => "medium"
  | .hard => "hard"

/-- Descending comparison for `order("created_at", { ascending: false })`. -/
def sessByCreatedDesc (a b : SessionRow) : Prop := b.created_at ≤ a.created_at

instance : DecidableRel sessByCreatedDesc := fun a b =>
  inferInstanceAs (Decidable (b.created_at ≤ a.created_at))

instance : IsTotal SessionRow sessByCreatedDesc :=
  ⟨fun a b => (le_total b.created_at a.created_at).imp id id⟩

instance : IsTrans SessionRow sessByCreatedDesc :=
  ⟨fun _ _ _ h1 h2 => le_trans h2 h1⟩

/-- The rows produced by the database query of the list route: filter by
    difficulty when one is requested, order newest first, apply the
    limit.  (SQL applies the filter before the order and limit.) -/
def sessionsWindow (store : List SessionRow) (difficulty : DifficultyFilter)
    (lim : Nat) : List SessionRow :=
  (List.insertionSort sessByCreatedDesc
    (if difficulty = .all then store
     else store.filter (fun s => decide (s.difficulty = difficultyStr difficulty)))).take lim

/-- The status filter applied in JS to each fetched session, exactly as
    written in the route (`all` keeps everything, `pending` keeps the
    sessions with no latest submission, `correct`/`incorrect` compare the
    latest submission's `is_correct` against `true`/`false`). -/
def statusKeep (status : StatusFilter) (s : SessionRow) : Bool :=
  let latest := computeLatestSubmission s.submissions
  match status with
  | .all => true
  | .pending => latest.isNone
  | .correct =>
    match latest with
    | none => false
    | some m => decide (m.is_correct = some true)
  | .incorrect =>
    match latest with
    | none => false
    | some m => decide (m.is_correct = some false)

/-- `GET /api/math-sessions` (store part): fetch the window, filter by
    status, annotate each surviving session. -/
def listSessionsGET (store : List SessionRow) (status : StatusFilter)
    (difficulty : DifficultyFilter) (lim : Nat) : List SessionView :=
  ((sessionsWindow store difficulty lim).filter (statusKeep status)).map annotateSession

/-! ### The hint route (`PATCH /api/math-sessions/[id]`) -/

/-- External outcomes the PATCH handler depends on. -/
structure PatchEnv where
  supabaseConfigured : Bool
  updateError : Bool
deriving DecidableEq, Repr

/-- Observable outcome of a PATCH request: HTTP status, the `updated`
    field of a 200 body, the resulting store, and whether the handler
    reached the database at all. -/
structure PatchResult where
  status : Nat
  updated : Option Bool
  store : List SessionRow
  storeAccessed : Bool
deriving DecidableEq, Repr

/-- The row update performed by
    `.update({ latest_hint: hint }).eq("id", id)`: only the matching
    row's `latest_hint` column changes. -/
def setHintOn (id hint : String) (s : SessionRow) : SessionRow :=
  if s.id = id then { s with latest_hint := some hint } else s

/-- `PATCH /api/math-sessions/[id]`.  `body` is the parsed JSON: `none`
    for a shape that fails validation, `some h` for a valid object whose
    optional `hint` field is `h` (the zod schema rejects an empty hint
    string with a 400).  A `latest_hint` update that matches zero rows is
    not a database error, so it is modelled by `updateError = false` like
    any other successful update. -/
def patchSession (id : String) (body : Option (Option String))
    (env : PatchEnv) (store : List SessionRow) : PatchResult :=
  if id = "" then ⟨400, none, store, false⟩
  else
    match body with
    | none => ⟨400, none, store, false⟩
    | some bodyHint =>
      match bodyHint with
      | none => ⟨200, some false, store, false⟩
      | some h =>
        if h = "" then ⟨400, none, store, false⟩
        else if ¬ env.supabaseConfigured then ⟨500, none, store, false⟩
        else if env.updateError then ⟨500, none, store, true⟩
        else ⟨200, some true, store.map (setHintOn id h), true⟩

/-! ### The submit-answer route (`POST .../submissions`, variant B /
    `part_011`) -/

/-- The validated request body of the submit-answer route. -/
structure SubmitPayload where
  problem : String
  correctAnswer : String
  studentAnswer : String
deriving DecidableEq, Repr

/-- External outcomes the submit-answer handler depends on.
    `aiExtract = none` models the numeric-extraction flow throwing;
    `aiExtract = some r` models it returning `{ numericAnswer: r }`.
    `feedbackText = none` models `providePersonalizedFeedback` throwing. -/
structure SubmitEnv where
  supabaseConfigured : Bool
  aiExtract : Option (Option ℚ)
  feedbackText : Option String
  insertOk : Bool
deriving DecidableEq, Repr

/-- A row inserted into `math_problem_submissions` by the variant-B
    route (numeric `user_answer`, `feedback_text` column). -/
structure SubRowB where
  session_id : String
  user_answer : ℚ
  is_correct : Bool
  feedback_text : String
deriving DecidableEq, Repr

/-- Observable outcome of a submit-answer request. -/
structure SubmitResult where
  status : Nat
  store : List SubRowB
  aiCalled : Bool
deriving DecidableEq, Repr

/-- `POST /api/math-sessions/[id]/submissions` (variant B, `part_011`):
    validate the id and payload, parse the student answer with the
    deterministic normalizer, fall back to the AI extraction flow only
    when that fails (an extraction exception is caught and leaves the
    value null), 422 when no numeric value is obtained, 500 when the
    stored correct answer does not parse, then compute correctness under
    the fixed tolerance, obtain feedback (an exception escapes to the
    outer handler as a 500), and insert the submission row. -/
def postSubmissionB (sessionId : String) (payload : Option SubmitPayload)
    (env : SubmitEnv) (store : List SubRowB) : SubmitResult :=
  let sid := trimChars sessionId.data
  if sid = [] then ⟨400, store, false⟩
  else
    match payload with
    | none => ⟨400, store, false⟩
    | some p =>
      if ¬ env.supabaseConfigured then ⟨500, store, false⟩
      else
        let det := parseNumericAnswerU p.studentAnswer
        let extracted : Option ℚ × Bool :=
          match det with
          | some v => (some v, false)
          | none =>
            match env.aiExtract with
            | none => (none, true)
            | some r => (r, true)
        match extracted.1 with
        | none => ⟨422, store, extracted.2⟩
        | some numericStudent =>
          match parseNumericAnswerU p.correctAnswer with
          | none => ⟨500, store, extracted.2⟩
          | some numericCorrect =>
            let isCorrect := decide (|numericCorrect - numericStudent| < 1 / 1000)
            match env.feedbackText with
            | none => ⟨500, store, extracted.2⟩
            | some fb =>
              if env.insertOk then
                ⟨200, store ++ [⟨String.mk sid, numericStudent, isCorrect, fb⟩],
                 extracted.2⟩
              else ⟨500, store, extracted.2⟩

/-! ### The client answer-check flow (`handleCheckAnswer` of
    `math-buddy-client.tsx`) -/

/-- External outcomes the client flow depends on: `feedbackText = none`
    models a failed `/api/provide-feedback` call (non-ok response or
    network error), `insertOk` the submission insert. -/
structure ClientEnv where
  feedbackText : Option String
  insertOk : Bool
deriving DecidableEq, Repr

/-- A row the client inserts into `math_problem_submissions`. -/
structure ClientSubRow where
  session_id : String
  user_answer : ℚ
  is_correct : Bool
  feedback_text : String
deriving DecidableEq, Repr

/-- Observable outcome of the client flow: the rows persisted, the
    feedback card shown (`none` while an invalid-answer toast is shown
    instead), and whether the invalid-answer toast fired. -/
structure ClientResult where
  store : List ClientSubRow
  displayedFeedback : Option (Bool × String)
  invalidToast : Bool
deriving DecidableEq, Repr

/-- The two fixed canned strings of the client's feedback fallback,
    selected by the already-computed correctness boolean. -/
def fallbackFeedback (isCorrect : Bool) : String :=
  if isCorrect then "Well done! That's the correct answer."
  else "That's not quite right. Have another look at the problem and try again!"

/-- `handleCheckAnswer` (with a problem and session id in hand): trim and
    `parseFloat` the typed answer (toast on NaN), compare against
    `parseFloat` of the stored answer with strict equality, fetch
    feedback, insert the submission, and on any failure show the canned
    fallback — note the insert is inside the same `try`, so a failed
    feedback call skips it. -/
def handleCheckAnswer (sessionId problemAnswer answerValue : String)
    (env : ClientEnv) (store : List ClientSubRow) : ClientResult :=
  match parseFloatQCore (trimChars answerValue.data) with
  | none => ⟨store, none, true⟩
  | some userAnswerNum =>
    let isCorrect :=
      match parseFloatQCore problemAnswer.data with
      | none => false
      | some correctAnswerNum => decide (userAnswerNum = correctAnswerNum)
    match env.feedbackText with
    | none => ⟨store, some (isCorrect, fallbackFeedback isCorrect), false⟩
    | some fb =>
      if env.insertOk then
        ⟨store ++ [⟨sessionId, userAnswerNum, isCorrect, fb⟩],
         some (isCorrect, fb), false⟩
      else ⟨store, some (isCorrect, fallbackFeedback isCorrect), false⟩

/-! ### The generative client's per-model caches (`getAI`,
    `getGenerateFlow`) -/

/-- Process-wide state of the generative client: the `clients` map of
    `genkit.ts`, and the prompt/flow maps of `generate-math-problems.ts`.
    Objects are identified by allocation number; `nextId` is the next
    fresh allocation. -/
structure AIState where
  clients : List (String × Nat)
  prompts : List (String × Nat)
  flows : List (String × Nat)
  nextId : Nat
deriving DecidableEq, Repr

/-- `Map.get` on an association list written by `Map.set`. -/
def mapLookup (m : List (String × Nat)) (k : String) : Option Nat :=
  (m.find? (fun e => decide (e.1 = k))).map (fun e => e.2)

/-- The default model identifier of `genkit.ts`. -/
def defaultModel : String := "googleai/gemini-2.5-flash"

/-- `getAI(model)`: return the cached backend client for the model, or
    construct one, cache it and return it. -/
def getAI (model : String) (st : AIState) : Nat × AIState :=
  match mapLookup st.clients model with
  | some c => (c, st)
  | none =>
    (st.nextId,
     { st with clients := (model, st.nextId) :: st.clients, nextId := st.nextId + 1 })

/-- The module-level `ai` client (`getAI()` evaluated at import time). -/
def aiModule (st : AIState) : Nat × AIState := getAI defaultModel st

/-- `getGenerateFlow(model)`: return the cached compiled flow for the
    model, or build the prompt and flow with the model's client, cache
    both and return the flow. -/
def getGenerateFlow (model : String) (st : AIState) : Nat × AIState :=
  match mapLookup st.flows model with
  | some f => (f, st)
  | none =>
    let clientStep := if model = defaultModel then aiModule st else getAI model st
    let st1 := clientStep.2
    let promptId := st1.nextId
    let st2 := { st1 with prompts := (model, promptId) :: st1.prompts,
                          nextId := st1.nextId + 1 }
    let flowId := st2.nextId
    let st3 := { st2 with flows := (model, flowId) :: st2.flows,
                          nextId := st2.nextId + 1 }
    (flowId, st3)

/-- A rest that starts with a pattern delimiter (or is empty) lets the
    float parser consume exactly a digit block. -/
def restDelim (rest : List Char) : Prop :=
  ∀ c r, rest = c :: r →
    c.isDigit = false ∧ c ≠ '.' ∧ c ≠ 'e' ∧ c ≠ 'E'

/-- A rest that the number-token matcher must not absorb. -/
def restToken (rest : List Char) : Prop :=
  ∀ c r, rest = c :: r → c.isDigit = false ∧ c ≠ '.'

/-- The string `"a/b"` for integers `a` and `b`. -/
def fractionText (a b : Int) : String :=
  String.mk (intChars a ++ '/' :: intChars b)


/-! ## Theorems -/

/-! ### C10: omitting the hint short-circuits before any store access -/

/-- Claim C10: for every attachHint (PATCH) request whose body passes
    validation but omits the hint field, the handler returns
    `updated: false` without performing any store access, so the
    session's state — including its stored hint — is unchanged. -/
theorem patchSession_omitted_hint (id : String) (env : PatchEnv)
    (store : List SessionRow) (hid : id ≠ "") :
    patchSession id (some none) env store
      = ⟨200, some false, store, false⟩ := by
  simp [patchSession, hid]

/-- Concrete instantiation of `patchSession_omitted_hint` (note the
    environment has no configured backend, yet the request succeeds
    without touching it). -/
theorem patchSession_omitted_hint_witness :
    ("session-7" : String) ≠ "" ∧
    patchSession "session-7" (some none) ⟨false, false⟩ []
      = ⟨200, some false, [], false⟩ :=
  ⟨by decide, patchSession_omitted_hint "session-7" ⟨false, false⟩ [] (by decide)⟩

/-! ### C7: attachHint on a nonexistent session -/

/-- Counterexample to claim C7: a PATCH with a hint for a session id
    that exists nowhere in the store (here the store is empty) reports
    `updated: true`, not `updated: false` — the zero-row update is not a
    database error, and the handler never checks existence. -/
theorem patchSession_missing_counterexample :
    (patchSession "missing-id" (some (some "Check step 2")) ⟨true, false⟩ []).updated
        = some true ∧
    (patchSession "missing-id" (some (some "Check step 2")) ⟨true, false⟩ []).updated
        ≠ some false ∧
    (patchSession "missing-id" (some (some "Check step 2")) ⟨true, false⟩ []).status
        = 200 := by
  refine ⟨rfl, by decide, rfl⟩

/-- Claim C7 as amended: a PATCH that carries a hint and whose update
    succeeds reports `updated: true` whether or not any session has the
    given id (`updated: false` arises only from an omitted hint), and the
    update touches only the `latest_hint` field of the matching rows:
    every other field of every row, and every row with a different id,
    is unchanged. -/
theorem patchSession_hint_update (id h : String) (env : PatchEnv)
    (store : List SessionRow) (hid : id ≠ "") (hh : h ≠ "")
    (hc : env.supabaseConfigured = true) (he : env.updateError = false) :
    (patchSession id (some (some h)) env store).status = 200 ∧
    (patchSession id (some (some h)) env store).updated = some true ∧
    (patchSession id (some (some h)) env store).store
      = store.map (setHintOn id h) ∧
    (∀ s : SessionRow, s.id ≠ id → setHintOn id h s = s) ∧
    (∀ s : SessionRow,
      (setHintOn id h s).id = s.id ∧
      (setHintOn id h s).created_at = s.created_at ∧
      (setHintOn id h s).primary_level = s.primary_level ∧
      (setHintOn id h s).topic = s.topic ∧
      (setHintOn id h s).difficulty = s.difficulty ∧
      (setHintOn id h s).problem_text = s.problem_text ∧
      (setHintOn id h s).answer_text = s.answer_text ∧
      (setHintOn id h s).working_steps = s.working_steps ∧
      (setHintOn id h s).submissions = s.submissions ∧
      (s.id = id → (setHintOn id h s).latest_hint = some h)) := by
  refine ⟨?_, ?_, ?_, ?_, ?_⟩
  · simp [patchSession, hid, hh, hc, he]
  · simp [patchSession, hid, hh, hc, he]
  · simp [patchSession, hid, hh, hc, he]
  · intro s hs
    simp [setHintOn, hs]
  · intro s
    unfold setHintOn
    by_cases hs : s.id = id <;> simp [hs]

/-- Concrete instantiation of `patchSession_hint_update`: updating a
    one-session store attaches the hint to that session and reports
    `updated: true`. -/
theorem patchSession_hint_update_witness :
    ("sess-1" : String) ≠ "" ∧ ("Try smaller steps" : String) ≠ "" ∧
    (patchSession "sess-1" (some (some "Try smaller steps")) ⟨true, false⟩
        [⟨"sess-1", 0, "Primary5", "Fractions", "easy", "p", "5", none, none, []⟩]).updated
      = some true :=
  ⟨by decide, by decide,
   (patchSession_hint_update "sess-1" "Try smaller steps" ⟨true, false⟩
      [⟨"sess-1", 0, "Primary5", "Fractions", "easy", "p", "5", none, none, []⟩]
      (by decide) (by decide) rfl rfl).2.1⟩

/-! ### C9: the generative client's caches are populated at most once -/

theorem mapLookup_insert_self (m : List (String × Nat)) (k : String) (v : Nat) :
    mapLookup ((k, v) :: m) k = some v := by
  simp [mapLookup, List.find?]

theorem mapLookup_insert_other (m : List (String × Nat)) (k k' : String) (v : Nat)
    (h : k' ≠ k) : mapLookup ((k, v) :: m) k' = mapLookup m k' := by
  simp [mapLookup, List.find?, Ne.symm h]

/-- `getAI` writes only the clients map. -/
theorem getAI_preserves_flows (m : String) (st : AIState) :
    (getAI m st).2.flows = st.flows := by
  unfold getAI
  cases hl : mapLookup st.clients m <;> simp

/-- `getAI` writes only the clients map. -/
theorem getAI_preserves_prompts (m : String) (st : AIState) :
    (getAI m st).2.prompts = st.prompts := by
  unfold getAI
  cases hl : mapLookup st.clients m <;> simp

/-- After `getAI m`, the clients map holds the returned object at `m`. -/
theorem getAI_caches (m : String) (st : AIState) :
    mapLookup (getAI m st).2.clients m = some (getAI m st).1 := by
  unfold getAI
  cases hl : mapLookup st.clients m with
  | none => simpa using mapLookup_insert_self st.clients m st.nextId
  | some c => simp [hl]

/-- `getAI` never evicts or replaces a cached client. -/
theorem getAI_keeps_clients (m k : String) (v : Nat) (st : AIState)
    (h : mapLookup st.clients k = some v) :
    mapLookup (getAI m st).2.clients k = some v := by
  unfold getAI
  cases hl : mapLookup st.clients m with
  | some c => simpa using h
  | none =>
    have hk : k ≠ m := by rintro rfl; rw [h] at hl; cases hl
    simpa [mapLookup_insert_other st.clients m k st.nextId hk] using h

/-- Claim C9: each cache of the generative content client is populated
    at most once per key.  Requesting the backend client (`getAI`) or the
    compiled flow (`getGenerateFlow`) for a model a second time returns
    the identical object created by the first request and leaves the
    state untouched, and no call evicts or replaces an existing entry of
    the clients, flows, or prompts maps (for the prompts map, on states
    where the prompt and flow caches hold the same keys — which every
    reachable state does, since the two entries are written together —
    and that alignment itself is preserved by every call). -/
theorem aiCaches_populate_once (m k : String) (v : Nat) (st : AIState) :
    ((getAI m (getAI m st).2).1 = (getAI m st).1 ∧
     (getAI m (getAI m st).2).2 = (getAI m st).2) ∧
    ((getGenerateFlow m (getGenerateFlow m st).2).1 = (getGenerateFlow m st).1 ∧
     (getGenerateFlow m (getGenerateFlow m st).2).2 = (getGenerateFlow m st).2) ∧
    (mapLookup st.clients k = some v →
       mapLookup (getAI m st).2.clients k = some v) ∧
    (mapLookup st.clients k = some v →
       mapLookup (getGenerateFlow m st).2.clients k = some v) ∧
    (mapLookup st.flows k = some v →
       mapLookup (getGenerateFlow m st).2.flows k = some v) ∧
    ((∀ k', (mapLookup st.prompts k').isSome ↔ (mapLookup st.flows k').isSome) →
       mapLookup st.prompts k = some v →
       mapLookup (getGenerateFlow m st).2.prompts k = some v) ∧
    ((∀ k', (mapLookup st.prompts k').isSome ↔ (mapLookup st.flows k').isSome) →
       ∀ k', (mapLookup (getGenerateFlow m st).2.prompts k').isSome ↔
             (mapLookup (getGenerateFlow m st).2.flows k').isSome) := by
  refine ⟨⟨?_, ?_⟩, ⟨?_, ?_⟩, getAI_keeps_clients m k v st, ?_, ?_, ?_, ?_⟩
  · have hc := getAI_caches m st
    conv_lhs => rw [getAI, hc]
  · have hc := getAI_caches m st
    conv_lhs => rw [getAI, hc]
  · have hf : mapLookup (getGenerateFlow m st).2.flows m
        = some (getGenerateFlow m st).1 := by
      unfold getGenerateFlow
      cases hl : mapLookup st.flows m with
      | some f => simp [hl]
      | none => simp [hl, mapLookup_insert_self]
    conv_lhs => rw [getGenerateFlow, hf]
  · have hf : mapLookup (getGenerateFlow m st).2.flows m
        = some (getGenerateFlow m st).1 := by
      unfold getGenerateFlow
      cases hl : mapLookup st.flows m with
      | some f => simp [hl]
      | none => simp [hl, mapLookup_insert_self]
    conv_lhs => rw [getGenerateFlow, hf]
  · intro h
    unfold getGenerateFlow
    cases hl : mapLookup st.flows m with
    | some f => simpa using h
    | none =>
      simp only [hl]
      unfold aiModule
      split <;> exact getAI_keeps_clients _ k v st h
  · intro h
    unfold getGenerateFlow
    cases hl : mapLookup st.flows m with
    | some f => simpa using h
    | none =>
      have hk : k ≠ m := by rintro rfl; rw [h] at hl; cases hl
      simp only [hl]
      unfold aiModule
      split <;>
        simpa [mapLookup_insert_other _ m k _ hk, getAI_preserves_flows] using h
  · intro halign h
    unfold getGenerateFlow
    cases hl : mapLookup st.flows m with
    | some f => simpa using h
    | none =>
      have hk : k ≠ m := by
        rintro rfl
        have := (halign k).mp (by simp [h])
        rw [hl] at this
        simp at this
      simp only [hl]
      unfold aiModule
      split <;>
        simpa [mapLookup_insert_other _ m k _ hk, getAI_preserves_prompts] using h
  · intro halign k'
    unfold getGenerateFlow
    cases hl : mapLookup st.flows m with
    | some f => simpa using halign k'
    | none =>
      by_cases hk : k' = m
      · subst hk
        simp only [hl]
        unfold aiModule
        split <;> simp [mapLookup_insert_self]
      · simp only [hl]
        unfold aiModule
        split <;>
          simpa [mapLookup_insert_other _ m k' _ hk, getAI_preserves_flows,
                 getAI_preserves_prompts] using halign k'

/-- Concrete instantiation of `aiCaches_populate_once`: on a state that
    already caches a client for `gemini-x`, a further `getAI` call for
    `gemini-y` preserves the cached entry. -/
theorem aiCaches_populate_once_witness :
    mapLookup (AIState.mk [("gemini-x", 0)] [] [] 1).clients "gemini-x" = some 0 ∧
    mapLookup (getAI "gemini-y" (AIState.mk [("gemini-x", 0)] [] [] 1)).2.clients
        "gemini-x" = some 0 :=
  ⟨by decide,
   (aiCaches_populate_once "gemini-y" "gemini-x" 0
      (AIState.mk [("gemini-x", 0)] [] [] 1)).2.2.1 (by decide)⟩

/-! ### C6: the AI extraction fallback and the 422 path -/

/-- Claim C6: in the submit-answer route, the AI numeric-extraction
    fallback is invoked exactly when the deterministic normalizer fails
    on the student answer (never as the primary path); and when the
    fallback then throws or returns null, the request ends with a 422
    and the store is unchanged — no submission is persisted. -/
theorem postSubmissionB_fallback_spec (sessionId : String) (p : SubmitPayload)
    (env : SubmitEnv) (store : List SubRowB)
    (hsid : trimChars sessionId.data ≠ [])
    (hcfg : env.supabaseConfigured = true) :
    ((postSubmissionB sessionId (some p) env store).aiCalled = true ↔
       parseNumericAnswerU p.studentAnswer = none) ∧
    (parseNumericAnswerU p.studentAnswer = none →
       (env.aiExtract = none ∨ env.aiExtract = some none) →
       (postSubmissionB sessionId (some p) env store).status = 422 ∧
       (postSubmissionB sessionId (some p) env store).store = store) := by
  constructor
  · cases hdet : parseNumericAnswerU p.studentAnswer with
    | some v =>
      cases hcor : parseNumericAnswerU p.correctAnswer with
      | none => simp [postSubmissionB, hsid, hcfg, hdet, hcor]
      | some nc =>
        cases hfb : env.feedbackText with
        | none => simp [postSubmissionB, hsid, hcfg, hdet, hcor, hfb]
        | some fb =>
          by_cases hio : env.insertOk <;>
            simp [postSubmissionB, hsid, hcfg, hdet, hcor, hfb, hio]
    | none =>
      cases hai : env.aiExtract with
      | none => simp [postSubmissionB, hsid, hcfg, hdet, hai]
      | some r =>
        cases r with
        | none => simp [postSubmissionB, hsid, hcfg, hdet, hai]
        | some v =>
          cases hcor : parseNumericAnswerU p.correctAnswer with
          | none => simp [postSubmissionB, hsid, hcfg, hdet, hai, hcor]
          | some nc =>
            cases hfb : env.feedbackText with
            | none => simp [postSubmissionB, hsid, hcfg, hdet, hai, hcor, hfb]
            | some fb =>
              by_cases hio : env.insertOk <;>
                simp [postSubmissionB, hsid, hcfg, hdet, hai, hcor, hfb, hio]
  · intro hdet hfail
    rcases hfail with hfail | hfail <;>
      simp [postSubmissionB, hsid, hcfg, hdet, hfail]

/-- Concrete instantiation of `postSubmissionB_fallback_spec`: the
    answer "banana" has no numeric content, the AI fallback returns
    null, and the request ends 422 with nothing persisted. -/
theorem postSubmissionB_fallback_spec_witness :
    trimChars ("abc123" : String).data ≠ [] ∧
    parseNumericAnswerU "banana" = none ∧
    (postSubmissionB "abc123"
        (some ⟨"What is 2+2?", "4", "banana"⟩)
        ⟨true, some none, some "Nice try!", true⟩ []).status = 422 ∧
    (postSubmissionB "abc123"
        (some ⟨"What is 2+2?", "4", "banana"⟩)
        ⟨true, some none, some "Nice try!", true⟩ []).store = [] := by
  refine ⟨by decide, by decide, ?_⟩
  exact (postSubmissionB_fallback_spec "abc123" ⟨"What is 2+2?", "4", "banana"⟩
    ⟨true, some none, some "Nice try!", true⟩ [] (by decide) rfl).2
    (by decide) (Or.inr rfl)

/-! ### C1: what actually happens when the feedback call fails -/

/-- Ground evaluation: the deterministic normalizer reads "5" as five. -/
theorem parseNumericAnswerU_lit5 : parseNumericAnswerU "5" = some 5 := by
  simp [parseNumericAnswerU, parseNumericAnswerCore, toPlainTextU, stripMarkup,
    stripBlocks, stripTags, replaceLit, collapseWs, litAtHead, patAtHead,
    tagRemainder, matchBlockAtHead, dropThroughCI, trimChars, removeCommas,
    unitStripAll, unitStrip, segmentIsUnit, isUnitClassChar, unitPatterns,
    containsCI, fractionMatchL, percentMatchL, matchNumber, matchUnsignedNum,
    parseFloatQCore, parseUnsigned, expFactor, digitsVal, digitVal, isJsSpace,
    List.dropWhile, List.takeWhile, Char.isDigit, Char.isAlpha, Char.isUpper,
    Char.isLower]

/-- Ground evaluation: the deterministic normalizer reads "7" as seven. -/
theorem parseNumericAnswerU_lit7 : parseNumericAnswerU "7" = some 7 := by
  simp [parseNumericAnswerU, parseNumericAnswerCore, toPlainTextU, stripMarkup,
    stripBlocks, stripTags, replaceLit, collapseWs, litAtHead, patAtHead,
    tagRemainder, matchBlockAtHead, dropThroughCI, trimChars, removeCommas,
    unitStripAll, unitStrip, segmentIsUnit, isUnitClassChar, unitPatterns,
    containsCI, fractionMatchL, percentMatchL, matchNumber, matchUnsignedNum,
    parseFloatQCore, parseUnsigned, expFactor, digitsVal, digitVal, isJsSpace,
    List.dropWhile, List.takeWhile, Char.isDigit, Char.isAlpha, Char.isUpper,
    Char.isLower]

/-- Ground evaluation: JS `parseFloat` reads "5" as five. -/
theorem parseFloatQCore_lit5 : parseFloatQCore ['5'] = some 5 := by
  simp [parseFloatQCore, parseUnsigned, expFactor, digitsVal, digitVal,
    isJsSpace, List.dropWhile, List.takeWhile, Char.isDigit]

/-- Ground evaluation: JS `parseFloat` reads "7" as seven. -/
theorem parseFloatQCore_lit7 : parseFloatQCore ['7'] = some 7 := by
  simp [parseFloatQCore, parseUnsigned, expFactor, digitsVal, digitVal,
    isJsSpace, List.dropWhile, List.takeWhile, Char.isDigit]

/-- Ground evaluation: trimming the one-character answers is a no-op. -/
theorem trimChars_lit : trimChars "5".data = "5".data ∧
    trimChars "7".data = "7".data ∧ trimChars "session-1".data ≠ [] ∧
    trimChars "s".data ≠ [] := by
  refine ⟨by decide, by decide, by decide, by decide⟩

/-- Counterexample to claim C1: with the correctness of the submission
    already decided (the literal answer "5" against the stored answer
    "5"), a failing feedback call does not leave a persisted submission
    behind.  The server submission route answers 500 and inserts
    nothing, and the client flow shows canned feedback but skips its
    insert, so in neither flow does the persisted submission-with-feedback
    that the claim promises exist. -/
theorem feedbackFailure_counterexample :
    (postSubmissionB "session-1" (some ⟨"What is 4+1?", "5", "5"⟩)
        ⟨true, some (some 5), none, true⟩ []).status = 500 ∧
    (postSubmissionB "session-1" (some ⟨"What is 4+1?", "5", "5"⟩)
        ⟨true, some (some 5), none, true⟩ []).store = [] ∧
    (handleCheckAnswer "session-1" "5" "5" ⟨none, true⟩ []).store = [] ∧
    (handleCheckAnswer "session-1" "5" "5" ⟨none, true⟩ []).displayedFeedback
      = some (true, fallbackFeedback true) := by
  have h1 : (postSubmissionB "session-1" (some ⟨"What is 4+1?", "5", "5"⟩)
      ⟨true, some (some 5), none, true⟩ []) = ⟨500, [], false⟩ := by
    simp [postSubmissionB, trimChars_lit.2.2.1, parseNumericAnswerU_lit5]
  have h2 : (handleCheckAnswer "session-1" "5" "5" ⟨none, true⟩ [])
      = ⟨[], some (true, fallbackFeedback true), false⟩ := by
    simp [handleCheckAnswer, trimChars_lit.1, parseFloatQCore_lit5]
  rw [h1, h2]
  exact ⟨rfl, rfl, rfl, rfl⟩

/-- Claim C1 as amended: when the generative feedback call fails, the
    client answer-check flow falls back to one of two fixed canned
    strings selected by the already-computed correctness boolean and
    the user-facing flow completes with that feedback text — but the
    submission is not persisted (the insert sits in the same `try` as
    the feedback call and is skipped), and the server submission route
    surfaces the same failure as a 500 with no submission persisted. -/
theorem feedbackFailure_amended :
    (∀ (sessionId problemAnswer answerValue : String) (env : ClientEnv)
       (store : List ClientSubRow) (u : ℚ),
       env.feedbackText = none →
       parseFloatQCore (trimChars answerValue.data) = some u →
       ∃ b : Bool,
         (handleCheckAnswer sessionId problemAnswer answerValue env store).displayedFeedback
           = some (b, fallbackFeedback b) ∧
         (handleCheckAnswer sessionId problemAnswer answerValue env store).store
           = store ∧
         (b = true ↔ parseFloatQCore problemAnswer.data = some u)) ∧
    (∀ (sessionId : String) (p : SubmitPayload) (env : SubmitEnv)
       (store : List SubRowB) (ns nc : ℚ),
       trimChars sessionId.data ≠ [] →
       env.supabaseConfigured = true →
       env.feedbackText = none →
       parseNumericAnswerU p.studentAnswer = some ns →
       parseNumericAnswerU p.correctAnswer = some nc →
       (postSubmissionB sessionId (some p) env store).status = 500 ∧
       (postSubmissionB sessionId (some p) env store).store = store) := by
  constructor
  · intro sessionId problemAnswer answerValue env store u hfail hu
    cases hc : parseFloatQCore problemAnswer.data with
    | none =>
      refine ⟨false, ?_, ?_, by simp [hc]⟩ <;>
        simp [handleCheckAnswer, hu, hfail, hc]
    | some c =>
      refine ⟨decide (u = c), ?_, ?_, ?_⟩
      · simp [handleCheckAnswer, hu, hfail, hc]
      · simp [handleCheckAnswer, hu, hfail, hc]
      · simp [hc, decide_eq_true_iff, eq_comm]
  · intro sessionId p env store ns nc hsid hcfg hfail hns hnc
    constructor <;> simp [postSubmissionB, hsid, hcfg, hns, hnc, hfail]

/-- Concrete instantiation of `feedbackFailure_amended`: an incorrect
    answer with a failing feedback backend yields the "not quite"
    canned string client-side and a 500 server-side, with nothing
    persisted in either flow. -/
theorem feedbackFailure_amended_witness :
    ((ClientEnv.mk none true).feedbackText = none ∧
      parseFloatQCore (trimChars ("7" : String).data) = some 7 ∧
      ∃ b : Bool,
        (handleCheckAnswer "s" "5" "7" ⟨none, true⟩ []).displayedFeedback
          = some (b, fallbackFeedback b) ∧
        (handleCheckAnswer "s" "5" "7" ⟨none, true⟩ []).store = [] ∧
        (b = true ↔ parseFloatQCore ("5" : String).data = some 7)) ∧
    ((postSubmissionB "s" (some ⟨"q", "5", "7"⟩) ⟨true, none, none, true⟩ []).status
        = 500 ∧
      (postSubmissionB "s" (some ⟨"q", "5", "7"⟩) ⟨true, none, none, true⟩ []).store
        = []) :=
  ⟨⟨rfl, by rw [trimChars_lit.2.1]; exact parseFloatQCore_lit7,
    feedbackFailure_amended.1 "s" "5" "7" ⟨none, true⟩ [] 7 rfl
      (by rw [trimChars_lit.2.1]; exact parseFloatQCore_lit7)⟩,
   feedbackFailure_amended.2 "s" ⟨"q", "5", "7"⟩ ⟨true, none, none, true⟩ [] 7 5
     trimChars_lit.2.2.2 rfl rfl parseNumericAnswerU_lit7 parseNumericAnswerU_lit5⟩

/-! ### C5: the latest submission is the one with the maximum timestamp -/

/-- A member of a list sorted ascending by creation time is bounded by
    the last element. -/
theorem sorted_le_getLast (l : List SubmissionRow)
    (hs : List.Sorted subByCreated l) (x : SubmissionRow) (hx : x ∈ l)
    (m : SubmissionRow) (hm : l.getLast? = some m) :
    x.created_at ≤ m.created_at := by
  induction l with
  | nil => cases hx
  | cons a t ih =>
    cases t with
    | nil =>
      simp only [List.getLast?_singleton, Option.some.injEq] at hm
      simp only [List.mem_singleton] at hx
      subst hm; subst hx; exact le_refl _
    | cons b t2 =>
      rw [List.getLast?_cons_cons] at hm
      have hmem : m ∈ b :: t2 := by
        cases hbt : (b :: t2).getLast? with
        | none => rw [hbt] at hm; cases hm
        | some y =>
          rw [hbt] at hm
          cases hm
          rcases List.mem_getLast?_eq_getLast (l := b :: t2) (x := m)
              (by simp [hbt]) with ⟨hne, hg⟩
          exact hg ▸ List.getLast_mem hne
      rcases List.mem_cons.mp hx with rfl | hx2
      · exact (List.pairwise_cons.mp hs).1 m hmem
      · exact ih (List.Sorted.of_cons hs) hx2 hm

/-- Claim C5: with zero submissions the latest submission is null, and
    for a non-empty submission list `computeLatestSubmission` — which
    sorts by creation timestamp rather than trusting insertion order —
    yields a member of the list whose creation timestamp is maximal. -/
theorem computeLatestSubmission_max :
    computeLatestSubmission [] = none ∧
    ∀ l : List SubmissionRow, l ≠ [] →
      ∃ m, computeLatestSubmission l = some m ∧ m ∈ l ∧
        ∀ x ∈ l, x.created_at ≤ m.created_at := by
  refine ⟨rfl, ?_⟩
  intro l hl
  cases l with
  | nil => exact absurd rfl hl
  | cons a t =>
    have hperm := List.perm_insertionSort subByCreated (a :: t)
    have hsorted := List.sorted_insertionSort subByCreated (a :: t)
    have hne : List.insertionSort subByCreated (a :: t) ≠ [] := by
      intro he
      have := hperm.length_eq
      rw [he] at this
      simp at this
    cases hgl : (List.insertionSort subByCreated (a :: t)).getLast? with
    | none => exact absurd (List.getLast?_eq_none_iff.mp hgl) hne
    | some m =>
      refine ⟨m, ?_, ?_, ?_⟩
      · exact hgl
      · rcases List.mem_getLast?_eq_getLast
            (l := List.insertionSort subByCreated (a :: t)) (x := m)
            (Option.mem_def.mpr hgl) with ⟨hne2, hg⟩
        exact hperm.mem_iff.mp (hg ▸ List.getLast_mem hne2)
      · intro x hx
        exact sorted_le_getLast _ hsorted x (hperm.mem_iff.mpr hx) m hgl

/-- Concrete instantiation of `computeLatestSubmission_max`: with two
    submissions appended in reverse timestamp order, the computed latest
    submission has the maximal timestamp 50 — it is the first-appended
    row, not the last-appended one. -/
theorem computeLatestSubmission_max_witness :
    ([⟨"s-a", 50, "5", none, some true⟩, ⟨"s-b", 10, "4", none, some false⟩]
        : List SubmissionRow) ≠ [] ∧
    (∃ m, computeLatestSubmission
        [⟨"s-a", 50, "5", none, some true⟩, ⟨"s-b", 10, "4", none, some false⟩]
          = some m ∧
        m ∈ [⟨"s-a", 50, "5", none, some true⟩, ⟨"s-b", 10, "4", none, some false⟩] ∧
        ∀ x ∈ [(⟨"s-a", 50, "5", none, some true⟩ : SubmissionRow),
               ⟨"s-b", 10, "4", none, some false⟩],
          x.created_at ≤ m.created_at) ∧
    computeLatestSubmission
        [⟨"s-a", 50, "5", none, some true⟩, ⟨"s-b", 10, "4", none, some false⟩]
      = some ⟨"s-a", 50, "5", none, some true⟩ :=
  ⟨by decide,
   computeLatestSubmission_max.2 _ (by decide),
   by decide⟩

/-! ### C8: the list route -/

/-- The computed latest submission is null exactly for an empty
    submission list. -/
theorem computeLatestSubmission_eq_none_iff (l : List SubmissionRow) :
    computeLatestSubmission l = none ↔ l = [] := by
  cases l with
  | nil => simp [computeLatestSubmission]
  | cons a t =>
    show (List.insertionSort subByCreated (a :: t)).getLast? = none ↔ a :: t = []
    refine ⟨fun h => ?_, fun h => by cases h⟩
    have hnil := List.getLast?_eq_none_iff.mp h
    have hperm := List.perm_insertionSort subByCreated (a :: t)
    rw [hnil] at hperm
    exact absurd hperm.length_eq (by simp)

/-- The `pending` filter keeps exactly the sessions with zero
    submissions. -/
theorem statusKeep_pending_iff (s : SessionRow) :
    statusKeep .pending s = true ↔ s.submissions = [] := by
  simp [statusKeep, Option.isNone_iff_eq_none, computeLatestSubmission_eq_none_iff]

/-- The `correct` filter keeps exactly the sessions whose computed
    latest submission has `is_correct = true`. -/
theorem statusKeep_correct_iff (s : SessionRow) :
    statusKeep .correct s = true ↔
      ∃ m, computeLatestSubmission s.submissions = some m ∧
        m.is_correct = some true := by
  cases h : computeLatestSubmission s.submissions <;> simp [statusKeep, h]

/-- The `incorrect` filter keeps exactly the sessions whose computed
    latest submission has `is_correct = false`. -/
theorem statusKeep_incorrect_iff (s : SessionRow) :
    statusKeep .incorrect s = true ↔
      ∃ m, computeLatestSubmission s.submissions = some m ∧
        m.is_correct = some false := by
  cases h : computeLatestSubmission s.submissions <;> simp [statusKeep, h]

/-- Claim C8: the list route returns at most `lim ≤ 100` sessions,
    ordered newest first; the result is exactly the status-filtered,
    annotated query window; each annotation carries the computed latest
    submission; `pending` keeps exactly the sessions with zero
    submissions; and `correct`/`incorrect` keep exactly the sessions
    whose latest submission's correctness flag is `true`/`false`,
    regardless of any earlier submission. -/
theorem listSessionsGET_spec (store : List SessionRow) (status : StatusFilter)
    (difficulty : DifficultyFilter) (lim : Nat) (hlim : lim ≤ 100) :
    (listSessionsGET store status difficulty lim).length ≤ 100 ∧
    List.Pairwise (fun a b : SessionView => b.createdAt ≤ a.createdAt)
      (listSessionsGET store status difficulty lim) ∧
    listSessionsGET store status difficulty lim
      = ((sessionsWindow store difficulty lim).filter (statusKeep status)).map
          annotateSession ∧
    (∀ s : SessionRow, (annotateSession s).latestSubmission
      = (computeLatestSubmission s.submissions).map viewSubmission) ∧
    (∀ s : SessionRow, statusKeep .pending s = true ↔ s.submissions = []) ∧
    (∀ s : SessionRow, statusKeep .correct s = true ↔
      ∃ m, computeLatestSubmission s.submissions = some m ∧
        m.is_correct = some true) ∧
    (∀ s : SessionRow, statusKeep .incorrect s = true ↔
      ∃ m, computeLatestSubmission s.submissions = some m ∧
        m.is_correct = some false) := by
  refine ⟨?_, ?_, rfl, fun s => rfl, statusKeep_pending_iff,
    statusKeep_correct_iff, statusKeep_incorrect_iff⟩
  · have h1 : (listSessionsGET store status difficulty lim).length
        ≤ (sessionsWindow store difficulty lim).length := by
      rw [listSessionsGET, List.length_map]
      exact List.length_filter_le _ _
    have h2 : (sessionsWindow store difficulty lim).length ≤ lim :=
      List.length_take_le _ _
    exact le_trans (le_trans h1 h2) hlim
  · have hsorted := List.sorted_insertionSort sessByCreatedDesc
      (if difficulty = .all then store
       else store.filter (fun s => decide (s.difficulty = difficultyStr difficulty)))
    have htake : List.Pairwise sessByCreatedDesc (sessionsWindow store difficulty lim) :=
      hsorted.sublist (List.take_sublist _ _)
    have hfilter : List.Pairwise sessByCreatedDesc
        ((sessionsWindow store difficulty lim).filter (statusKeep status)) :=
      htake.sublist (List.filter_sublist _)
    rw [listSessionsGET]
    exact List.pairwise_map.mpr hfilter

/-- Concrete instantiation of `listSessionsGET_spec` at limit 2 on a
    two-session store. -/
theorem listSessionsGET_spec_witness :
    (2 : Nat) ≤ 100 ∧
    (listSessionsGET
        [⟨"a", 5, "Primary5", "Fractions", "easy", "p1", "1", none, none, []⟩,
         ⟨"b", 9, "Primary5", "Decimals", "hard", "p2", "2", none, none,
          [⟨"sub", 11, "2", none, some true⟩]⟩]
        .all .all 2).length ≤ 100 :=
  ⟨by decide,
   (listSessionsGET_spec
      [⟨"a", 5, "Primary5", "Fractions", "easy", "p1", "1", none, none, []⟩,
       ⟨"b", 9, "Primary5", "Decimals", "hard", "p2", "2", none, none,
        [⟨"sub", 11, "2", none, some true⟩]⟩]
      .all .all 2 (by decide)).1⟩

/-! ### C4: the correctness evaluator -/

/-- Ground evaluation: `answersMatch` normalizes "5" to five. -/
theorem normalizedNumeric_lit5 : normalizedNumeric "5" = some 5 := by
  simp [normalizedNumeric, plainLower, toPlainTextR, stripHtmlR, stripMarkup,
    stripBlocks, stripTags, replaceLit, collapseWs, litAtHead, patAtHead,
    tagRemainder, matchBlockAtHead, dropThroughCI, trimChars, removeCommas,
    parseNumericAnswerCore, fractionMatchL, percentMatchL, matchNumber,
    matchUnsignedNum, parseFloatQCore, parseUnsigned, expFactor, digitsVal,
    digitVal, isJsSpace, List.dropWhile, List.takeWhile, Char.isDigit,
    Char.toLower]

/-- Ground evaluation: `answersMatch` normalizes "5.0009" exactly. -/
theorem normalizedNumeric_lit5_0009 :
    normalizedNumeric "5.0009" = some (50009 / 10000) := by
  simp [normalizedNumeric, plainLower, toPlainTextR, stripHtmlR, stripMarkup,
    stripBlocks, stripTags, replaceLit, collapseWs, litAtHead, patAtHead,
    tagRemainder, matchBlockAtHead, dropThroughCI, trimChars, removeCommas,
    parseNumericAnswerCore, fractionMatchL, percentMatchL, matchNumber,
    matchUnsignedNum, parseFloatQCore, parseUnsigned, expFactor, digitsVal,
    digitVal, isJsSpace, List.dropWhile, List.takeWhile, Char.isDigit,
    Char.toLower]
  norm_num

/-- Ground evaluation: `answersMatch` normalizes "5.002" exactly. -/
theorem normalizedNumeric_lit5_002 :
    normalizedNumeric "5.002" = some (2501 / 500) := by
  simp [normalizedNumeric, plainLower, toPlainTextR, stripHtmlR, stripMarkup,
    stripBlocks, stripTags, replaceLit, collapseWs, litAtHead, patAtHead,
    tagRemainder, matchBlockAtHead, dropThroughCI, trimChars, removeCommas,
    parseNumericAnswerCore, fractionMatchL, percentMatchL, matchNumber,
    matchUnsignedNum, parseFloatQCore, parseUnsigned, expFactor, digitsVal,
    digitVal, isJsSpace, List.dropWhile, List.takeWhile, Char.isDigit,
    Char.toLower]
  norm_num

/-- Claim C4: the correctness evaluator normalizes both sides; when both
    normalize to numbers `a` and `b` it answers correct exactly when
    `|a − b| < 0.001`; when either side fails to normalize it answers
    the equality of the cleaned, lowercased text of the two sides; and
    at the tolerance boundary, `"5"` against `"5.0009"` is correct while
    `"5"` against `"5.002"` is not. -/
theorem answersMatch_spec :
    (∀ c s : String, ∀ a b : ℚ,
       normalizedNumeric c = some a → normalizedNumeric s = some b →
       (answersMatch c s = true ↔ |a - b| < 1 / 1000)) ∧
    (∀ c s : String,
       normalizedNumeric c = none ∨ normalizedNumeric s = none →
       (answersMatch c s = true ↔ plainLower c = plainLower s)) ∧
    answersMatch "5" "5.0009" = true ∧
    answersMatch "5" "5.002" = false := by
  refine ⟨?_, ?_, ?_, ?_⟩
  · intro c s a b ha hb
    simp [answersMatch, ha, hb]
  · intro c s h
    rcases h with h | h
    · simp [answersMatch, h]
    · cases hc : normalizedNumeric c <;> simp [answersMatch, hc, h]
  · simp only [answersMatch, normalizedNumeric_lit5, normalizedNumeric_lit5_0009,
      decide_eq_true_eq]
    rw [abs_sub_lt_iff]
    norm_num
  · simp only [answersMatch, normalizedNumeric_lit5, normalizedNumeric_lit5_002]
    rw [decide_eq_false_iff_not, abs_sub_lt_iff]
    norm_num

/-- Concrete instantiation of `answersMatch_spec` on the tolerance
    boundary pair. -/
theorem answersMatch_spec_witness :
    normalizedNumeric "5" = some 5 ∧
    normalizedNumeric "5.002" = some (2501 / 500) ∧
    (answersMatch "5" "5.002" = true ↔ |(5 : ℚ) - 2501 / 500| < 1 / 1000) :=
  ⟨normalizedNumeric_lit5, normalizedNumeric_lit5_002,
   answersMatch_spec.1 "5" "5.002" 5 (2501 / 500)
     normalizedNumeric_lit5 normalizedNumeric_lit5_002⟩

/-! ### C2: machinery — decimal digit strings and greedy token matching -/

theorem digitVal_digitChar (m : Nat) (h : m < 10) : digitVal (digitChar m) = m := by
  interval_cases m <;> decide

theorem isDigit_digitChar (m : Nat) (h : m < 10) : (digitChar m).isDigit = true := by
  interval_cases m <;> decide

theorem digitsVal_append (l : List Char) (c : Char) :
    digitsVal (l ++ [c]) = 10 * digitsVal l + digitVal c := by
  simp [digitsVal, List.foldl_append]
  ring

theorem natDigitsGo_spec (fuel : Nat) :
    ∀ n, n < fuel →
      natDigitsGo fuel n ≠ [] ∧ (∀ c ∈ natDigitsGo fuel n, c.isDigit = true) ∧
      digitsVal (natDigitsGo fuel n) = n := by
  induction fuel with
  | zero => intro n h; omega
  | succ fuel ih =>
    intro n h
    by_cases hn : n < 10
    · refine ⟨by simp [natDigitsGo, hn], ?_, ?_⟩
      · intro c hc
        simp only [natDigitsGo, if_pos hn, List.mem_singleton] at hc
        exact hc ▸ isDigit_digitChar n hn
      · simp only [natDigitsGo, if_pos hn]
        show digitsVal [digitChar n] = n
        have : digitsVal [digitChar n] = digitVal (digitChar n) := by
          simp [digitsVal]
        rw [this, digitVal_digitChar n hn]
    · have hdiv : n / 10 < fuel := by
        have h1 : n / 10 < n := Nat.div_lt_self (by omega) (by omega)
        omega
      obtain ⟨hne, hdig, hval⟩ := ih (n / 10) hdiv
      have hmod : n % 10 < 10 := Nat.mod_lt _ (by omega)
      refine ⟨by simp [natDigitsGo, hn], ?_, ?_⟩
      · intro c hc
        simp only [natDigitsGo, if_neg hn, List.mem_append,
          List.mem_singleton] at hc
        rcases hc with hc | hc
        · exact hdig c hc
        · exact hc ▸ isDigit_digitChar _ hmod
      · simp only [natDigitsGo, if_neg hn]
        rw [digitsVal_append, hval, digitVal_digitChar _ hmod]
        omega

theorem natDigits_ne_nil (n : Nat) : natDigits n ≠ [] :=
  (natDigitsGo_spec (n + 1) n (by omega)).1

theorem natDigits_digits (n : Nat) : ∀ c ∈ natDigits n, c.isDigit = true :=
  (natDigitsGo_spec (n + 1) n (by omega)).2.1

theorem digitsVal_natDigits (n : Nat) : digitsVal (natDigits n) = n :=
  (natDigitsGo_spec (n + 1) n (by omega)).2.2

/-- A digit character is not one of the structural characters of the
    number patterns. -/
theorem isDigit_excludes (c : Char) (h : c.isDigit = true) :
    isJsSpace c = false ∧ c ≠ ',' ∧ c ≠ '-' ∧ c ≠ '+' ∧ c ≠ '.' ∧
    c ≠ '/' ∧ c ≠ '%' ∧ c ≠ 'e' ∧ c ≠ 'E' := by
  refine ⟨?_, ?_, ?_, ?_, ?_, ?_, ?_, ?_, ?_⟩
  · cases hs : isJsSpace c with
    | false => rfl
    | true =>
      exfalso
      simp only [isJsSpace, decide_eq_true_eq] at hs
      rcases hs with rfl | rfl | rfl | rfl | rfl | rfl <;> exact absurd h (by decide)
  all_goals (rintro rfl; exact absurd h (by decide))

/-- `takeWhile`/`dropWhile` pass over a block that satisfies the
    predicate and stop at a head that falsifies it. -/
theorem takeWhile_dropWhile_append (p : Char → Bool) (l₁ l₂ : List Char)
    (h1 : ∀ c ∈ l₁, p c = true)
    (h2 : ∀ c r, l₂ = c :: r → p c = false) :
    (l₁ ++ l₂).takeWhile p = l₁ ∧ (l₁ ++ l₂).dropWhile p = l₂ := by
  induction l₁ with
  | nil =>
    cases l₂ with
    | nil => exact ⟨rfl, rfl⟩
    | cons c r =>
      have := h2 c r rfl
      simp [List.takeWhile_cons, List.dropWhile_cons, this]
  | cons a t ih =>
    have ha : p a = true := h1 a (List.mem_cons_self a t)
    obtain ⟨ht, hd⟩ := ih (fun c hc => h1 c (List.mem_cons_of_mem a hc))
    simp [List.takeWhile_cons, List.dropWhile_cons, ha, ht, hd]

theorem dropWhile_eq_self_of_all (p : Char → Bool) (l : List Char)
    (h : ∀ c ∈ l, p c = false) : l.dropWhile p = l := by
  cases l with
  | nil => rfl
  | cons c t => simp [List.dropWhile_cons, h c (List.mem_cons_self c t)]

theorem trimChars_eq_self (cs : List Char)
    (h : ∀ c ∈ cs, isJsSpace c = false) : trimChars cs = cs := by
  unfold trimChars
  rw [dropWhile_eq_self_of_all _ _ h,
      dropWhile_eq_self_of_all _ _ (fun c hc => h c (by simpa using hc)),
      List.reverse_reverse]

theorem removeCommas_eq_self (cs : List Char) (h : ∀ c ∈ cs, c ≠ ',') :
    removeCommas cs = cs :=
  List.filter_eq_self.mpr (fun a ha => by simp [h a ha])

/-- Every character of the decimal rendering of an integer is a digit or
    the leading minus sign. -/
theorem intChars_chars (x : Int) :
    ∀ c ∈ intChars x, c.isDigit = true ∨ c = '-' := by
  intro c hc
  unfold intChars at hc
  by_cases hx : x < 0
  · rw [if_pos hx] at hc
    rcases List.mem_cons.mp hc with rfl | hc2
    · exact Or.inr rfl
    · exact Or.inl (natDigits_digits _ c hc2)
  · rw [if_neg hx] at hc
    exact Or.inl (natDigits_digits _ c hc)

theorem intChars_ne_nil (x : Int) : intChars x ≠ [] := by
  unfold intChars
  by_cases hx : x < 0
  · simp [hx]
  · simp [hx, natDigits_ne_nil]

/-- Characters of a rendered fraction are never whitespace or commas, so
    the route's cleaning passes leave it unchanged. -/
theorem fractionChars_clean (c : Char)
    (h : c.isDigit = true ∨ c = '-' ∨ c = '/' ∨ c = '%') :
    isJsSpace c = false ∧ c ≠ ',' := by
  rcases h with h | rfl | rfl | rfl
  · exact ⟨(isDigit_excludes c h).1, (isDigit_excludes c h).2.1⟩
  all_goals exact ⟨by decide, by decide⟩

theorem parseUnsigned_digits (ds rest : List Char) (hne : ds ≠ [])
    (hd : ∀ c ∈ ds, c.isDigit = true) (hrest : restDelim rest) :
    parseUnsigned (ds ++ rest) = some (digitsVal ds : ℚ) := by
  obtain ⟨htake, hdrop⟩ := takeWhile_dropWhile_append Char.isDigit ds rest hd
    (fun c r h => (hrest c r h).1)
  simp only [parseUnsigned, htake, hdrop]
  cases rest with
  | nil =>
    have h0 : digitsVal [] = 0 := rfl
    simp [hne, h0, expFactor]
  | cons c r =>
    obtain ⟨hcd, hcdot, hce, hcE⟩ := hrest c r rfl
    have hfr : (match (c :: r : List Char) with
        | '.' :: r2 => (r2.takeWhile Char.isDigit, r2.dropWhile Char.isDigit)
        | _ => (([] : List Char), c :: r)) = (([] : List Char), c :: r) := by
      split
      · next r2 heq =>
          injection heq with h1 h2
          exact absurd h1 hcdot
      · rfl
    rw [hfr]
    have hexp : expFactor (c :: r) = 1 := by
      unfold expFactor
      have hcc : (c = 'e' ∨ c = 'E') = False := by simp [hce, hcE]
      simp [hcc]
    have h0 : digitsVal [] = 0 := rfl
    simp [hne, hexp, h0]

theorem parseFloatQCore_natDigits (n : Nat) (rest : List Char)
    (hrest : restDelim rest) :
    parseFloatQCore (natDigits n ++ rest) = some (n : ℚ) := by
  obtain ⟨d, ds, hd⟩ := List.exists_cons_of_ne_nil (natDigits_ne_nil n)
  have hdd : d.isDigit = true :=
    natDigits_digits n d (by rw [hd]; exact List.mem_cons_self d ds)
  have hdrop : (natDigits n ++ rest).dropWhile isJsSpace
      = natDigits n ++ rest := by
    rw [hd, List.cons_append]
    simp [List.dropWhile_cons, (isDigit_excludes d hdd).1]
  unfold parseFloatQCore
  rw [hdrop, hd, List.cons_append]
  have hd1 : d ≠ '-' := (isDigit_excludes d hdd).2.2.1
  have hd2 : d ≠ '+' := (isDigit_excludes d hdd).2.2.2.1
  split
  · next r heq => injection heq with h1 h2; exact absurd h1 hd1
  · next r heq => injection heq with h1 h2; exact absurd h1 hd2
  · rw [← List.cons_append, ← hd,
      parseUnsigned_digits (natDigits n) rest (natDigits_ne_nil n)
        (natDigits_digits n) hrest, digitsVal_natDigits]

theorem parseFloatQCore_intChars (x : Int) (rest : List Char)
    (hrest : restDelim rest) :
    parseFloatQCore (intChars x ++ rest) = some (x : ℚ) := by
  by_cases hx : x < 0
  · have hsplit : intChars x ++ rest = '-' :: (natDigits x.natAbs ++ rest) := by
      simp [intChars, hx]
    unfold parseFloatQCore
    rw [hsplit]
    have hdrop : ('-' :: (natDigits x.natAbs ++ rest)).dropWhile isJsSpace
        = '-' :: (natDigits x.natAbs ++ rest) := by
      simp [List.dropWhile_cons, show isJsSpace '-' = false from rfl]
    rw [hdrop]
    show (parseUnsigned (natDigits x.natAbs ++ rest)).map (fun q => -q)
        = some (x : ℚ)
    rw [parseUnsigned_digits (natDigits x.natAbs) rest (natDigits_ne_nil _)
        (natDigits_digits _) hrest, digitsVal_natDigits]
    have hcast : ((x.natAbs : Int) : ℚ) = -(x : ℚ) := by
      have h1 : (x.natAbs : Int) = -x := by omega
      rw [h1]
      push_cast
      ring
    show some (-(x.natAbs : ℚ)) = some (x : ℚ)
    congr 1
    rw [← Int.cast_natCast (R := ℚ) x.natAbs, hcast]
    ring
  · have hx' : 0 ≤ x := le_of_not_lt hx
    have hsplit : intChars x ++ rest = natDigits x.toNat ++ rest := by
      simp [intChars, hx]
    rw [hsplit, parseFloatQCore_natDigits _ _ hrest]
    congr 1
    rw [show ((x.toNat : ℚ)) = ((x.toNat : Int) : ℚ) from by push_cast; ring,
      Int.toNat_of_nonneg hx']

theorem matchUnsignedNum_digits (n : Nat) (rest : List Char)
    (hrest : restToken rest) :
    matchUnsignedNum (natDigits n ++ rest) = some (natDigits n, rest) := by
  obtain ⟨htake, hdrop⟩ := takeWhile_dropWhile_append Char.isDigit
    (natDigits n) rest (natDigits_digits n) (fun c r h => (hrest c r h).1)
  simp only [matchUnsignedNum, htake, hdrop]
  rw [if_neg (natDigits_ne_nil n)]
  cases rest with
  | nil => rfl
  | cons c r =>
    obtain ⟨hcd, hcdot⟩ := hrest c r rfl
    split
    · next r2 heq => injection heq with h1 h2; exact absurd h1 hcdot
    · rfl

theorem matchNumber_intChars (x : Int) (rest : List Char)
    (hrest : restToken rest) :
    matchNumber (intChars x ++ rest) = some (intChars x, rest) := by
  by_cases hx : x < 0
  · have hsplit : intChars x ++ rest = '-' :: (natDigits x.natAbs ++ rest) := by
      simp [intChars, hx]
    rw [hsplit]
    show (matchUnsignedNum (natDigits x.natAbs ++ rest)).map
        (fun g => ('-' :: g.1, g.2)) = some (intChars x, rest)
    rw [matchUnsignedNum_digits _ _ hrest]
    simp [intChars, hx]
  · have hsplit : intChars x ++ rest = natDigits x.toNat ++ rest := by
      simp [intChars, hx]
    rw [hsplit]
    obtain ⟨d, ds, hd⟩ := List.exists_cons_of_ne_nil (natDigits_ne_nil x.toNat)
    have hdd : d.isDigit = true :=
      natDigits_digits _ d (by rw [hd]; exact List.mem_cons_self d ds)
    unfold matchNumber
    rw [hd, List.cons_append]
    split
    · next r heq =>
        injection heq with h1 h2
        exact absurd h1 (isDigit_excludes d hdd).2.2.1
    · rw [← List.cons_append, ← hd, matchUnsignedNum_digits _ _ hrest]
      simp [intChars, hx, hd]

/-- No character of a rendered integer is whitespace. -/
theorem intChars_no_space (x : Int) : ∀ c ∈ intChars x, isJsSpace c = false := by
  intro c hc
  rcases intChars_chars x c hc with h | rfl
  · exact (isDigit_excludes c h).1
  · rfl

theorem fractionMatchL_fraction (a b : Int) :
    fractionMatchL (intChars a ++ '/' :: intChars b)
      = some (intChars a, intChars b) := by
  have hrest : restToken ('/' :: intChars b) := by
    intro c r h
    injection h with h1 h2
    subst h1
    exact ⟨by decide, by decide⟩
  unfold fractionMatchL
  rw [matchNumber_intChars a _ hrest]
  have h2 : List.dropWhile isJsSpace ('/' :: intChars b) = '/' :: intChars b := by
    simp [List.dropWhile_cons, show isJsSpace '/' = false from rfl]
  show (match List.dropWhile isJsSpace ('/' :: intChars b) with
    | '/' :: r2 =>
      (match matchNumber (List.dropWhile isJsSpace r2) with
       | none => none
       | some (g2, _) => some (intChars a, g2))
    | _ => none) = some (intChars a, intChars b)
  rw [h2]
  show (match matchNumber (List.dropWhile isJsSpace (intChars b)) with
    | none => none
    | some (g2, _) => some (intChars a, g2)) = some (intChars a, intChars b)
  rw [dropWhile_eq_self_of_all _ _ (intChars_no_space b),
    show intChars b = intChars b ++ [] from (List.append_nil _).symm,
    matchNumber_intChars b [] (fun c r h => by simp at h)]
  simp

theorem percentMatchL_fraction (a b : Int) :
    percentMatchL (intChars a ++ '/' :: intChars b) = none := by
  have hrest : restToken ('/' :: intChars b) := by
    intro c r h
    injection h with h1 h2
    subst h1
    exact ⟨by decide, by decide⟩
  unfold percentMatchL
  rw [matchNumber_intChars a _ hrest]
  have h2 : List.dropWhile isJsSpace ('/' :: intChars b) = '/' :: intChars b := by
    simp [List.dropWhile_cons, show isJsSpace '/' = false from rfl]
  show (match List.dropWhile isJsSpace ('/' :: intChars b) with
    | ['%'] => some (intChars a)
    | _ => none) = none
  rw [h2]
  split
  · next heq =>
      exfalso
      have : ('/' :: intChars b : List Char) = ['%'] := heq
      injection this with h1 h2
      exact absurd h1 (by decide)
  · rfl

/-- The route's cleaning passes (comma removal and trim) leave a
    rendered fraction unchanged. -/
theorem cleaning_fractionText (a b : Int) :
    trimChars (removeCommas (fractionText a b).data)
      = intChars a ++ '/' :: intChars b := by
  have hchars : ∀ c ∈ intChars a ++ '/' :: intChars b,
      c.isDigit = true ∨ c = '-' ∨ c = '/' ∨ c = '%' := by
    intro c hc
    rcases List.mem_append.mp hc with hc | hc
    · rcases intChars_chars a c hc with h | h
      · exact Or.inl h
      · exact Or.inr (Or.inl h)
    · rcases List.mem_cons.mp hc with rfl | hc2
      · exact Or.inr (Or.inr (Or.inl rfl))
      · rcases intChars_chars b c hc2 with h | h
        · exact Or.inl h
        · exact Or.inr (Or.inl h)
  show trimChars (removeCommas (intChars a ++ '/' :: intChars b))
      = intChars a ++ '/' :: intChars b
  rw [removeCommas_eq_self _ (fun c hc => (fractionChars_clean c (hchars c hc)).2),
    trimChars_eq_self _ (fun c hc => (fractionChars_clean c (hchars c hc)).1)]

theorem parseFloatQCore_intChars_nil (x : Int) :
    parseFloatQCore (intChars x) = some (x : ℚ) := by
  rw [show intChars x = intChars x ++ [] from (List.append_nil _).symm]
  exact parseFloatQCore_intChars x [] (fun c r h => by simp at h)

/-- Claim C2 as amended: normalizing `"a/b"` with `b ≠ 0` yields the
    rational `a / b`; but for a zero denominator the rejected fraction
    branch falls through to the plain `parseFloat`, which reads the
    leading numerator, so normalizing `"x/0"` yields `x` rather than the
    "no value" the claim states. -/
theorem parseNumericAnswer_fraction_amended :
    (∀ a b : Int, b ≠ 0 →
       parseNumericAnswer (fractionText a b) = some ((a : ℚ) / (b : ℚ))) ∧
    (∀ x : Int, parseNumericAnswer (fractionText x 0) = some ((x : Int) : ℚ)) := by
  constructor
  · intro a b hb
    unfold parseNumericAnswer
    rw [cleaning_fractionText]
    have hne : intChars a ++ '/' :: intChars b ≠ [] := by simp
    have hbq : ((b : ℚ)) ≠ 0 := Int.cast_ne_zero.mpr hb
    simp [parseNumericAnswerCore, hne, fractionMatchL_fraction,
      parseFloatQCore_intChars_nil, hbq]
  · intro x
    unfold parseNumericAnswer
    rw [cleaning_fractionText]
    have hne : intChars x ++ '/' :: intChars 0 ≠ [] := by simp
    have hrest : restDelim ('/' :: intChars 0) := by
      intro c r h
      injection h with h1 h2
      subst h1
      refine ⟨by decide, by decide, by decide, by decide⟩
    have hplain := parseFloatQCore_intChars x ('/' :: intChars 0) hrest
    simp [parseNumericAnswerCore, hne, fractionMatchL_fraction,
      parseFloatQCore_intChars_nil, percentMatchL_fraction, hplain]

/-- Concrete instantiation of `parseNumericAnswer_fraction_amended`:
    `"1/2"` normalizes to one half, `"5/0"` to five. -/
theorem parseNumericAnswer_fraction_amended_witness :
    (2 : Int) ≠ 0 ∧
    parseNumericAnswer (fractionText 1 2) = some ((1 : ℚ) / 2) ∧
    parseNumericAnswer (fractionText 5 0) = some ((5 : Int) : ℚ) :=
  ⟨by decide,
   by
     have h := parseNumericAnswer_fraction_amended.1 1 2 (by decide)
     rw [h]
     norm_num,
   parseNumericAnswer_fraction_amended.2 5⟩

/-- Counterexample to claim C2 as stated: normalizing "5/0" does not
    return "no value" — the plain-float fallback salvages the numerator
    and returns five. -/
theorem parseNumericAnswer_overZero_counterexample :
    parseNumericAnswer "5/0" = some 5 ∧ parseNumericAnswer "5/0" ≠ none := by
  have h : parseNumericAnswer "5/0" = some 5 := by
    simp [parseNumericAnswer, parseNumericAnswerCore, trimChars, removeCommas,
      fractionMatchL, percentMatchL, matchNumber, matchUnsignedNum,
      parseFloatQCore, parseUnsigned, expFactor, digitsVal, digitVal, isJsSpace,
      List.dropWhile, List.takeWhile, Char.isDigit]
  exact ⟨h, by rw [h]; simp⟩

/-! ### C3: the percent pattern across the two normalizer variants -/

/-- Claim C3's failing input: in the unit-stripping normalizer of
    `part_010`/`part_011`, the cleaning pass replaces the `%` run before
    the percent pattern can ever see it (the percent branch is dead
    code), so "50%" normalizes to 50 — while the submissions-route
    normalizer, whose cleaning keeps `%`, returns 1/2 as the claim
    states. -/
theorem percentNormalization_divergence :
    parseNumericAnswerU "50%" = some 50 ∧
    parseNumericAnswer "50%" = some (1 / 2) := by
  constructor
  · simp [parseNumericAnswerU, parseNumericAnswerCore, toPlainTextU, stripMarkup,
      stripBlocks, stripTags, replaceLit, collapseWs, litAtHead, patAtHead,
      tagRemainder, matchBlockAtHead, dropThroughCI, trimChars, removeCommas,
      unitStripAll, unitStrip, segmentIsUnit, isUnitClassChar, unitPatterns,
      containsCI, fractionMatchL, percentMatchL, matchNumber, matchUnsignedNum,
      parseFloatQCore, parseUnsigned, expFactor, digitsVal, digitVal, isJsSpace,
      List.dropWhile, List.takeWhile, Char.isDigit, Char.isAlpha, Char.isUpper,
      Char.isLower, Char.toLower]
  · simp [parseNumericAnswer, parseNumericAnswerCore, trimChars, removeCommas,
      fractionMatchL, percentMatchL, matchNumber, matchUnsignedNum,
      parseFloatQCore, parseUnsigned, expFactor, digitsVal, digitVal, isJsSpace,
      List.dropWhile, List.takeWhile, Char.isDigit]
    norm_num

end MathBuddy









